import Mathlib

/-
Verification development for send_images.py: a linear fetch / parse /
download / send pipeline.  Python strings are modelled as lists of
characters (`PyStr`), HTML fragments as small structures holding exactly
the attributes the script reads, and the network as an explicit
environment of responses (`NetEnv`).  The orchestrator `main` is modelled
as a pure function from environment variables and network responses to an
event trace (fetches, download attempts, send attempts, printed lines)
plus an outcome (an exit code, or an uncaught exception).
-/

namespace SendImages

/-- Python strings are modelled as lists of characters. -/
abbrev PyStr := List Char

/-- Shorthand turning a Lean string literal into its character list. -/
def pys (s : String) : PyStr := s.data

/-- Model of Python str.strip with no argument, restricted to ASCII
whitespace: drop whitespace characters from both ends. -/
def pyStrip (s : PyStr) : PyStr :=
  ((s.dropWhile Char.isWhitespace).reverse.dropWhile Char.isWhitespace).reverse

/-- Fueled worker for `pyReplace`.  The fuel starts at the length of the
string and every step consumes at least one character, so the fuel never
runs out on the inputs `pyReplace` passes in; fuel only makes the
recursion structural. -/
def pyReplaceFuel (old new : PyStr) : Nat → PyStr → PyStr
  | 0, s => s
  | fuel + 1, s =>
    match s with
    | [] => []
    | c :: rest =>
      if old ≠ [] ∧ old.isPrefixOf (c :: rest) then
        new ++ pyReplaceFuel old new fuel ((c :: rest).drop old.length)
      else
        c :: pyReplaceFuel old new fuel rest

/-- Model of Python str.replace: replace every non-overlapping occurrence
of `old` by `new`, scanning left to right.  The source only ever calls it
with a nonempty `old`, so CPython's special empty-pattern behaviour is
not modelled. -/
def pyReplace (s old new : PyStr) : PyStr :=
  pyReplaceFuel old new s.length s

/-- Numeric value of a hexadecimal digit character, if it is one. -/
def hexDigit (c : Char) : Option Nat :=
  if '0' ≤ c ∧ c ≤ '9' then some (c.toNat - '0'.toNat)
  else if 'a' ≤ c ∧ c ≤ 'f' then some (c.toNat - 'a'.toNat + 10)
  else if 'A' ≤ c ∧ c ≤ 'F' then some (c.toNat - 'A'.toNat + 10)
  else none

/-- Model of urllib.parse.unquote restricted to single-byte percent
escapes: a valid `%XX` pair decodes to the character with that code,
anything else is copied through unchanged (CPython leaves malformed
escapes as literal text). -/
def pyUnquote : PyStr → PyStr
  | [] => []
  | '%' :: a :: b :: rest =>
    match hexDigit a, hexDigit b with
    | some hi, some lo => Char.ofNat (16 * hi + lo) :: pyUnquote rest
    | _, _ => '%' :: pyUnquote (a :: b :: rest)
  | c :: rest => c :: pyUnquote rest

/-- Split a character list at the first character satisfying `p`:
returns the part before it and, when found, the part after it. -/
def breakAt (p : Char → Bool) : PyStr → PyStr × Option PyStr
  | [] => ([], none)
  | c :: rest =>
    if p c then ([], some rest)
    else
      let r := breakAt p rest
      (c :: r.1, r.2)

/-- Characters allowed in a URL scheme after the leading letter
(urllib.parse.scheme_chars). -/
def schemeChar (c : Char) : Bool :=
  c.isAlphanum || c == '+' || c == '-' || c == '.'

/-- Model of the scheme-splitting step of urllib.parse.urlsplit: when the
text before the first colon is a valid scheme (nonempty, letter first,
scheme characters only), return it lowercased together with the rest;
otherwise report no scheme. -/
def splitScheme (url : PyStr) : Option PyStr × PyStr :=
  match breakAt (fun c => c == ':') url with
  | (_, none) => (none, url)
  | (before, some rest) =>
    if before ≠ [] ∧ (before.headD ' ').isAlpha ∧ before.all schemeChar then
      (some (before.map Char.toLower), rest)
    else
      (none, url)

/-- A character that does not terminate the netloc component. -/
def notNetlocDelim (c : Char) : Bool := c != '/' && c != '?' && c != '#'

/-- Model of the netloc-splitting step of urllib.parse.urlsplit: when the
text after the scheme starts with two slashes, the netloc runs until the
next slash, question mark or hash. -/
def splitNetloc (rest : PyStr) : PyStr × PyStr :=
  match rest with
  | '/' :: '/' :: after => (after.takeWhile notNetlocDelim, after.dropWhile notNetlocDelim)
  | other => ([], other)

/-- A character that does not terminate the path component. -/
def notPathDelim (c : Char) : Bool := c != '?' && c != '#'

/-- Model of urllib.parse.urlsplit(url).path for the URL shapes this
program handles: what remains after scheme and netloc, cut at the first
query or fragment delimiter. -/
def urlsplitPath (url : PyStr) : PyStr :=
  (splitNetloc (splitScheme url).2).2.takeWhile notPathDelim

/-- Model of the params split urllib.parse.urlparse performs on top of
urlsplit: the part of the final slash-separated segment after a
semicolon is removed from the path. -/
def splitParams (p : PyStr) : PyStr :=
  let lastSeg := (p.splitOn '/').getLastD []
  p.take (p.length - lastSeg.length) ++ lastSeg.takeWhile (fun c => c != ';')

/-- Model of urllib.parse.urlparse(url).path. -/
def urlparsePath (url : PyStr) : PyStr :=
  splitParams (urlsplitPath url)

/-- The origin (scheme, colon, two slashes, netloc) of a URL; used to
state the claim that extracted image URLs match the page's origin. -/
def originOf (url : PyStr) : PyStr :=
  let (sch, rest) := splitScheme url
  sch.getD [] ++ pys "://" ++ (splitNetloc rest).1

/-- Model of requests.compat.urljoin (urllib.parse.urljoin) restricted to
a root-relative second argument, the only shape the guarded branch at
line 51 of send_images.py could ever feed it: the base's origin followed
by the root-relative reference.  The branch is proved unreachable below. -/
def urljoin (base rel : PyStr) : PyStr :=
  originOf base ++ rel

/-- An img tag as the script reads it: only its alt attribute matters. -/
structure ImgTag where
  alt : Option PyStr
deriving DecidableEq

/-- An anchor tag as the script reads it: only its href attribute
matters.  A missing attribute is `none`; `a.get("href")` also treats an
empty string as missing via Python falsiness, handled at the use site. -/
structure ATag where
  href : Option PyStr
deriving DecidableEq

/-- One li entry of the image list: `li.find("a")` yields the first
anchor descendant or nothing, `li.find("img")` the first img descendant
or nothing. -/
structure LiTag where
  a : Option ATag
  img : Option ImgTag
deriving DecidableEq

/-- A div with class newsimage: the list of its li descendants in
document order, as enumerated by `find_all("li")`. -/
structure NewsImageDiv where
  lis : List LiTag
deriving DecidableEq

/-- A fetched and parsed page: the divs with class newsimage in document
order, as enumerated by `soup.find_all("div", class_="newsimage")`. -/
structure Page where
  newsimageDivs : List NewsImageDiv
deriving DecidableEq

/-- The hardcoded page URL of send_images.py (line 22). -/
def URL : PyStr := pys "https://thetv.jp/news/detail/1310405/"

/-- The src string built at lines 41-45 of send_images.py: the literal
prefix, then the stripped href with its last character dropped and the
detail segment replaced by the image segment, then the .jpg suffix. -/
def srcRaw (href : PyStr) : PyStr :=
  pys "https://thetv.jp/" ++
    pyReplace (pyStrip href).dropLast (pys "/news/detail/") (pys "/i/nw/") ++
    pys ".jpg"

/-- The src value after the normalization branches at lines 47-51: a
protocol-relative src gains the https scheme, a root-relative src is
joined against the page URL, anything else passes through. -/
def srcOf (url href : PyStr) : PyStr :=
  let src := srcRaw href
  if (pys "//").isPrefixOf src then pys "https:" ++ src
  else if (pys "/").isPrefixOf src then urljoin url src
  else src

/-- The per-entry step of get_all_items (lines 38-55): skip the entry if
it has no anchor or no (truthy) href; otherwise build the src, then read
the caption from the first img's alt attribute — an img without an alt
attribute raises KeyError, and a missing img yields an empty caption. -/
def extractEntry (url : PyStr) (li : LiTag) : Except PyStr (Option (PyStr × PyStr)) :=
  match li.a with
  | none => .ok none
  | some anchor =>
    match anchor.href with
    | none => .ok none
    | some href =>
      if href.isEmpty then .ok none
      else
        let src := srcOf url href
        match li.img with
        | none => .ok (some (src, []))
        | some img =>
          match img.alt with
          | none => .error (pys "KeyError: alt")
          | some alt => .ok (some (src, alt))

/-- The loop of get_all_items over the li entries of the container, in
document order: skipped entries contribute nothing, accepted entries
contribute their (src, caption) pair, and a raised exception aborts the
whole call. -/
def extractLis (url : PyStr) : List LiTag → Except PyStr (List (PyStr × PyStr))
  | [] => .ok []
  | li :: rest =>
    match extractEntry url li with
    | .error e => .error e
    | .ok none => extractLis url rest
    | .ok (some item) =>
      match extractLis url rest with
      | .error e => .error e
      | .ok items => .ok (item :: items)

/-- The parsing part of get_all_items (lines 35-58): index 0 of
`soup.find_all("div", class_="newsimage")` — an IndexError if there is no
such div — then the loop over its li entries. -/
def extractItems (url : PyStr) (page : Page) : Except PyStr (List (PyStr × PyStr)) :=
  match page.newsimageDivs with
  | [] => .error (pys "IndexError: list index out of range")
  | d :: _ => extractLis url d.lis

/-- Worker for the digit runs of CPython float parsing: consume further
digits, allowing a single underscore only between two digits, and return
the unconsumed remainder. -/
def digRunCont : PyStr → PyStr
  | '_' :: c :: rest => if c.isDigit then digRunCont rest else '_' :: c :: rest
  | c :: rest => if c.isDigit then digRunCont rest else c :: rest
  | [] => []

/-- Consume a nonempty digit run (underscores allowed between digits)
and return the remainder, or nothing when no leading digit is present. -/
def digRun : PyStr → Option PyStr
  | c :: rest => if c.isDigit then some (digRunCont rest) else none
  | [] => none

/-- Consume the mantissa of a CPython float literal: digits, an optional
dot with optional further digits, where at least one digit must appear
on one side of the dot.  Returns the remainder, or nothing on failure. -/
def parseMantissa (s : PyStr) : Option PyStr :=
  match digRun s with
  | some rest =>
    match rest with
    | '.' :: rest2 =>
      match digRun rest2 with
      | some rest3 => some rest3
      | none => some rest2
    | other => some other
  | none =>
    match s with
    | '.' :: rest2 => digRun rest2
    | _ => none

/-- Consume an optional exponent part (e, optional sign, digits) of a
CPython float literal; consumes nothing when no e is present. -/
def parseExp (s : PyStr) : Option PyStr :=
  match s with
  | 'e' :: rest =>
    match rest with
    | '+' :: rest2 => digRun rest2
    | '-' :: rest2 => digRun rest2
    | rest2 => digRun rest2
  | other => some other

/-- Model of CPython float(string) acceptance, restricted to ASCII input:
strip whitespace, lowercase, allow one sign, then either one of the
words inf, infinity, nan, or a float literal (digits, optional dot,
optional exponent, single underscores between digits).  Only acceptance
matters to the program's control flow, not the numeric value. -/
def pyFloatAccepts (s : PyStr) : Bool :=
  let t := (pyStrip s).map Char.toLower
  let t2 := match t with
    | '+' :: r => r
    | '-' :: r => r
    | r => r
  if t2 = pys "inf" ∨ t2 = pys "infinity" ∨ t2 = pys "nan" then true
  else
    match parseMantissa t2 with
    | none => false
    | some rest =>
      match parseExp rest with
      | none => false
      | some r => r.isEmpty

/-- A Python value as far as the credential handling observes one:
either a string from the environment or an int sentinel. -/
inductive PyVal where
  | str : PyStr → PyVal
  | int : Int → PyVal
deriving DecidableEq

/-- Python truthiness of the values above: a string is truthy when
nonempty, an int when nonzero. -/
def pyTruthy : PyVal → Bool
  | .str s => !s.isEmpty
  | .int n => n != 0

/-- Model of `os.getenv(name) or sentinel` at lines 106-107 of
send_images.py: a missing or empty environment variable is replaced by
the int sentinel, anything else stays a string. -/
def credValue (v : Option PyStr) (sentinel : Int) : PyVal :=
  match v with
  | none => .int sentinel
  | some s => if s.isEmpty then .int sentinel else .str s

/-- Image bytes, abstractly. -/
abbrev Bytes := List Nat

/-- The network as the program observes it: the response to fetching the
page (already parsed, or the exception raised by raise_for_status or the
parser), the response to each image GET, and the response to each
sendPhoto POST (the ok field of the JSON reply, which may be absent, or
the exception raised on failure). -/
structure NetEnv where
  fetchPage : Except PyStr Page
  getImage : PyStr → Except PyStr Bytes
  sendPhoto : PyVal → PyVal → Bytes → PyStr → PyStr → Except PyStr (Option Bool)

/-- get_all_items (lines 25-58): fetch the page, then extract; any
exception from either step propagates to the caller. -/
def get_all_items (env : NetEnv) (url : PyStr) : Except PyStr (List (PyStr × PyStr)) :=
  match env.fetchPage with
  | .error e => .error e
  | .ok page => extractItems url page

/-- The recognized image extensions of download_image_bytes (line 82). -/
def imageExts : List PyStr :=
  [pys ".jpg", pys ".jpeg", pys ".png", pys ".gif", pys ".webp"]

/-- Whether a lowercased name ends with a recognized image extension. -/
def hasImageExt (lower : PyStr) : Bool :=
  imageExts.any (fun e => e.isSuffixOf lower)

/-- The filename derivation of download_image_bytes (lines 72-84): the
URL path's last slash-separated segment, URL-decoded, falling back to
the name file when empty; a lowercased name without a recognized image
extension gets .jpg appended. -/
def deriveFilename (image_url : PyStr) : PyStr :=
  let path := urlparsePath image_url
  let rawName := pyUnquote ((path.splitOn '/').getLastD [])
  let name := if rawName = [] then pys "file" else rawName
  if hasImageExt (name.map Char.toLower) then name else name ++ pys ".jpg"

/-- download_image_bytes (lines 61-85): GET the image (an exception on
failure propagates), then pair the bytes with the derived filename. -/
def download_image_bytes (env : NetEnv) (image_url : PyStr) :
    Except PyStr (Bytes × PyStr) :=
  match env.getImage image_url with
  | .error e => .error e
  | .ok content => .ok (content, deriveFilename image_url)

/-- send_photo_telegram (lines 88-102): POST the photo; an exception on
failure propagates, otherwise the parsed JSON response is returned. -/
def send_photo_telegram (env : NetEnv) (bot_token chat_id : PyVal)
    (file_bytes : Bytes) (filename caption : PyStr) : Except PyStr (Option Bool) :=
  env.sendPhoto bot_token chat_id file_bytes filename caption

/-- An observable event of a run: the page fetch, a download attempt, a
send attempt, or a printed line.  The debug prints inside get_all_items
and the sleeps are not modelled. -/
inductive Ev where
  | fetch : Ev
  | download : PyStr → Ev
  | send : PyStr → Ev
  | print : PyStr → Ev
deriving DecidableEq

/-- How a run ends: a process exit code (falling off the end of main is
exit code 0), or an uncaught exception. -/
inductive Outcome where
  | exit : Nat → Outcome
  | uncaught : PyStr → Outcome
deriving DecidableEq

/-- The single-quote character, used in the sent-confirmation line. -/
def squote : Char := Char.ofNat 39

/-- Python's repr of the optional ok field, as the f-string prints it. -/
def okRepr : Option Bool → PyStr
  | none => pys "None"
  | some true => pys "True"
  | some false => pys "False"

/-- The progress line printed at line 130. -/
def processingLine (idx total : Nat) (image_url : PyStr) : PyStr :=
  pys "[" ++ pys (toString idx) ++ pys "/" ++ pys (toString total) ++
    pys "] Processing: " ++ image_url

/-- The confirmation line printed at line 142. -/
def sentLine (filename : PyStr) (ok : Option Bool) : PyStr :=
  pys "  Sent as photo " ++ [squote] ++ filename ++ [squote] ++
    pys ", ok=" ++ okRepr ok

/-- The summary line printed at line 163. -/
def doneLine (sent total : Nat) : PyStr :=
  pys "Done. Sent " ++ pys (toString sent) ++ pys "/" ++ pys (toString total) ++
    pys " images."

/-- One iteration of the per-item loop (lines 129-161): print the
progress line, attempt the download (an error is printed and the item
skipped), then attempt the send (an error is printed, a success prints
the confirmation and counts one sent). -/
def processItem (env : NetEnv) (token chat_id : PyVal) (total idx : Nat)
    (item : PyStr × PyStr) : List Ev × Nat :=
  let evs0 := [Ev.print (processingLine idx total item.1), Ev.download item.1]
  match download_image_bytes env item.1 with
  | .error e => (evs0 ++ [Ev.print (pys "  Error downloading image: " ++ e)], 0)
  | .ok (file_bytes, filename) =>
    match send_photo_telegram env token chat_id file_bytes filename item.2 with
    | .error e =>
      (evs0 ++ [Ev.send item.1, Ev.print (pys "  Error sending to Telegram: " ++ e)], 0)
    | .ok ok =>
      (evs0 ++ [Ev.send item.1, Ev.print (sentLine filename ok)], 1)

/-- The per-item loop from position idx on, accumulating the event trace
and the sent counter. -/
def processFrom (env : NetEnv) (token chat_id : PyVal) (total idx : Nat) :
    List (PyStr × PyStr) → List Ev × Nat
  | [] => ([], 0)
  | item :: rest =>
    let r := processItem env token chat_id total idx item
    let r2 := processFrom env token chat_id total (idx + 1) rest
    (r.1 ++ r2.1, r.2 + r2.2)

/-- The body of main after the credential guard, for the single loop
iteration i = 1: fetch and parse (an exception prints the error and
exits with code 1), handle the empty item list (print and fall through
to exit code 0), parse the delay (an unparseable value raises an
uncaught ValueError), then run the per-item loop and print the summary. -/
def mainBody (token chat_id : PyVal) (delayEnv : Option PyStr) (env : NetEnv) :
    List Ev × Outcome :=
  match env.fetchPage with
  | .error e =>
    ([Ev.fetch, Ev.print (pys "Error fetching/parsing page: " ++ e)], .exit 1)
  | .ok page =>
    match extractItems URL page with
    | .error e =>
      ([Ev.fetch, Ev.print (pys "Error fetching/parsing page: " ++ e)], .exit 1)
    | .ok items =>
      if items.isEmpty then
        ([Ev.fetch, Ev.print (pys "No items found on the page.")], .exit 0)
      else
        if pyFloatAccepts (delayEnv.getD (pys "1")) then
          let r := processFrom env token chat_id items.length 1 items
          (Ev.fetch :: r.1 ++ [Ev.print (doneLine r.2 items.length)], .exit 0)
        else
          ([Ev.fetch], .uncaught (pys "ValueError: could not convert string to float"))

/-- main (lines 105-163) as a function of the three environment
variables and the network: credential loading with int sentinels, the
(dead) credential guard, then the body above. -/
def main (tokEnv chatEnv delayEnv : Option PyStr) (env : NetEnv) :
    List Ev × Outcome :=
  let token := credValue tokEnv 1
  let chat_id := credValue chatEnv 2
  if !pyTruthy token || !pyTruthy chat_id then
    ([Ev.print (pys "Please set TELEGRAM_BOT_TOKEN and TELEGRAM_CHAT_ID environment variables.")],
      .exit 2)
  else
    mainBody token chat_id delayEnv env

/-- An entry the loop skips at lines 39-40: no anchor, no href
attribute, or an empty (falsy) href. -/
def liSkipped (li : LiTag) : Bool :=
  match li.a with
  | none => true
  | some anchor =>
    match anchor.href with
    | none => true
    | some href => href.isEmpty

/-- Whether reading the entry's caption cannot raise: either no img
element, or an img carrying an alt attribute. -/
def altSafe (li : LiTag) : Bool :=
  match li.img with
  | none => true
  | some img => img.alt.isSome

/-- A well-formed entry: it has an anchor with a truthy href, and its
caption can be read without raising. -/
def liWellFormed (li : LiTag) : Bool :=
  !liSkipped li && altSafe li

/-- The href of an entry, defaulting to empty when absent. -/
def liHref (li : LiTag) : PyStr :=
  match li.a with
  | none => []
  | some anchor => anchor.href.getD []

/-- The caption of an entry, defaulting to empty when absent. -/
def liCaption (li : LiTag) : PyStr :=
  match li.img with
  | none => []
  | some img => img.alt.getD []

/-- The item a well-formed entry contributes. -/
def itemOfLi (url : PyStr) (li : LiTag) : PyStr × PyStr :=
  (srcOf url (liHref li), liCaption li)

/-- Whether the loop body counts an item as sent: its download succeeds
and then its send succeeds. -/
def successfulItem (env : NetEnv) (token chat_id : PyVal) (item : PyStr × PyStr) : Bool :=
  match env.getImage item.1 with
  | .error _ => false
  | .ok content =>
    match env.sendPhoto token chat_id content (deriveFilename item.1) item.2 with
    | .error _ => false
    | .ok _ => true

/-- The download attempts recorded in an event trace, in order. -/
def downloadsOf (evs : List Ev) : List PyStr :=
  evs.filterMap (fun e => match e with | .download u => some u | _ => none)

/-- A network whose page fetch succeeds with the given page and whose
image and send requests all fail. -/
def netWithPage (page : Page) : NetEnv where
  fetchPage := .ok page
  getImage := fun _ => .error (pys "HTTP error")
  sendPhoto := fun _ _ _ _ _ => .error (pys "HTTP error")

/-- A page whose document has no div with class newsimage at all. -/
def pageNoContainer : Page := ⟨[]⟩

/-- The single entry of the spec's worked example: href
/news/detail/1310405/1/ and alt Member A. -/
def liExample : LiTag :=
  ⟨some ⟨some (pys "/news/detail/1310405/1/")⟩, some ⟨some (pys "Member A")⟩⟩

/-- A page holding exactly the worked example entry. -/
def pageExample : Page := ⟨[⟨[liExample]⟩]⟩

/-- An entry with a usable href whose img element lacks an alt
attribute. -/
def liNoAlt : LiTag :=
  ⟨some ⟨some (pys "/news/detail/1310405/2/")⟩, some ⟨none⟩⟩

/-- A container mixing skipped and well-formed entries: one entry with
no anchor, one with no href, one with an empty href, and two well-formed
ones (the second without an img element). -/
def mixedDiv : NewsImageDiv :=
  ⟨[⟨none, some ⟨some (pys "x")⟩⟩,
    ⟨some ⟨none⟩, none⟩,
    ⟨some ⟨some []⟩, none⟩,
    liExample,
    ⟨some ⟨some (pys "/news/detail/1310405/3/")⟩, none⟩]⟩

/-- A page holding exactly the mixed container. -/
def pageMixed : Page := ⟨[mixedDiv]⟩

/-- A container with entries only of the skipped kinds. -/
def allSkippedDiv : NewsImageDiv :=
  ⟨[⟨none, some ⟨some (pys "x")⟩⟩, ⟨some ⟨none⟩, none⟩, ⟨some ⟨some []⟩, none⟩]⟩

/-- A page holding exactly the all-skipped container. -/
def pageAllSkipped : Page := ⟨[allSkippedDiv]⟩

/-- The three-entry page of the failure-tolerance scenario. -/
def pageThree : Page :=
  ⟨[⟨[⟨some ⟨some (pys "/news/detail/1310405/1/")⟩, some ⟨some (pys "A")⟩⟩,
      ⟨some ⟨some (pys "/news/detail/1310405/2/")⟩, some ⟨some (pys "B")⟩⟩,
      ⟨some ⟨some (pys "/news/detail/1310405/3/")⟩, some ⟨some (pys "C")⟩⟩]⟩]⟩

/-- A network serving pageThree where only the second image's download
fails and every send succeeds. -/
def netItemTwoFails : NetEnv where
  fetchPage := .ok pageThree
  getImage := fun u =>
    if u = pys "https://thetv.jp//i/nw/1310405/2.jpg" then .error (pys "HTTP 404")
    else .ok [0]
  sendPhoto := fun _ _ _ _ _ => .ok (some true)

theorem srcOf_eq_srcRaw (url href : PyStr) : srcOf url href = srcRaw href := rfl

theorem srcRaw_ne_nil (href : PyStr) : srcRaw href ≠ [] := fun h => List.noConfusion h

theorem originOf_srcRaw (href : PyStr) : originOf (srcRaw href) = pys "https://thetv.jp" := rfl

theorem originOf_URL : originOf URL = pys "https://thetv.jp" := rfl

theorem credValue_truthy (v : Option PyStr) (n : Int) (hn : n ≠ 0) :
    pyTruthy (credValue v n) = true := by
  cases v with
  | none => simp [credValue, pyTruthy, hn]
  | some s => by_cases hs : s.isEmpty <;> simp [credValue, pyTruthy, hs, hn]

theorem main_eq_mainBody (tokEnv chatEnv delayEnv : Option PyStr) (env : NetEnv) :
    main tokEnv chatEnv delayEnv env =
      mainBody (credValue tokEnv 1) (credValue chatEnv 2) delayEnv env := by
  simp [main, credValue_truthy tokEnv 1 (by decide), credValue_truthy chatEnv 2 (by decide)]

theorem extractEntry_of_skipped (url : PyStr) (li : LiTag) (h : liSkipped li = true) :
    extractEntry url li = .ok none := by
  rcases li with ⟨oa, oimg⟩
  cases oa with
  | none => rfl
  | some anchor =>
    rcases anchor with ⟨ohref⟩
    cases ohref with
    | none => rfl
    | some href =>
      simp only [liSkipped] at h
      simp [extractEntry, h]

theorem wf_false_of_skipped (li : LiTag) (h : liSkipped li = true) :
    liWellFormed li = false := by
  simp [liWellFormed, h]

theorem extractEntry_of_wellFormed (url : PyStr) (li : LiTag) (h : liWellFormed li = true) :
    extractEntry url li = .ok (some (itemOfLi url li)) := by
  rcases li with ⟨oa, oimg⟩
  cases oa with
  | none => simp [liWellFormed, liSkipped] at h
  | some anchor =>
    rcases anchor with ⟨ohref⟩
    cases ohref with
    | none => simp [liWellFormed, liSkipped] at h
    | some href =>
      cases oimg with
      | none =>
        simp [liWellFormed, liSkipped, altSafe] at h
        simp [extractEntry, itemOfLi, liHref, liCaption, h]
      | some img =>
        rcases img with ⟨oalt⟩
        cases oalt with
        | none => simp [liWellFormed, liSkipped, altSafe] at h
        | some alt =>
          simp [liWellFormed, liSkipped, altSafe] at h
          simp [extractEntry, itemOfLi, liHref, liCaption, h]

theorem extractLis_mixed (url : PyStr) (lis : List LiTag)
    (h : ∀ li ∈ lis, liSkipped li = true ∨ liWellFormed li = true) :
    extractLis url lis = .ok ((lis.filter (fun li => liWellFormed li)).map (itemOfLi url)) := by
  induction lis with
  | nil => rfl
  | cons li rest ih =>
    have hrest := ih (fun l hl => h l (List.mem_cons_of_mem _ hl))
    rcases h li (List.mem_cons_self li rest) with hs | hw
    · simp [extractLis, extractEntry_of_skipped url li hs, hrest, wf_false_of_skipped li hs]
    · simp [extractLis, extractEntry_of_wellFormed url li hw, hrest, hw]

/-- C1: the claim says a run with TELEGRAM_BOT_TOKEN (or TELEGRAM_CHAT_ID)
unset exits with code 2 before any network call.  The code instead
replaces a missing or empty variable by a truthy int sentinel (lines
106-107), so the guard at line 108 can never fire: whatever the
environment variables and the network, the run never exits with code 2
and always performs the page fetch. -/
theorem C1_missing_credentials_never_exit_two :
    ∀ (tokEnv chatEnv delayEnv : Option PyStr) (env : NetEnv),
      (main tokEnv chatEnv delayEnv env).2 ≠ Outcome.exit 2 ∧
      Ev.fetch ∈ (main tokEnv chatEnv delayEnv env).1 := by
  intro tokEnv chatEnv delayEnv env
  rw [main_eq_mainBody]
  unfold mainBody
  cases hf : env.fetchPage with
  | error e => simp
  | ok page =>
    cases hx : extractItems URL page with
    | error e => simp [hx]
    | ok items =>
      by_cases hi : items = [] <;>
        by_cases hd : pyFloatAccepts (delayEnv.getD (pys "1")) <;>
          simp [hx, hi, hd, List.isEmpty_iff]

/-- C2 counterexample: on a fetched document with no newsimage container
the extractor does not return an empty sequence — it raises an
IndexError, and the run then exits with code 1, not 0. -/
theorem C2_cx_absent_container_raises :
    extractItems URL pageNoContainer = .error (pys "IndexError: list index out of range") ∧
    (main (some (pys "token")) (some (pys "chat")) none (netWithPage pageNoContainer)).2 =
      Outcome.exit 1 := by
  constructor <;> rfl

/-- C2 amended: only when the container is present does an entry-less (or
all-skipped) document give an empty sequence, after which the run prints
the no-items line and ends with exit code 0; when the container is
absent, the extractor raises and the run exits with code 1. -/
theorem C2_empty_extraction :
    (∀ (url : PyStr) (page : Page), page.newsimageDivs = [] →
      extractItems url page = .error (pys "IndexError: list index out of range")) ∧
    (∀ (url : PyStr) (page : Page) (d : NewsImageDiv) (rest : List NewsImageDiv),
      page.newsimageDivs = d :: rest →
      (∀ li ∈ d.lis, liSkipped li = true) →
      extractItems url page = .ok []) ∧
    (∀ (tokEnv chatEnv delayEnv : Option PyStr) (env : NetEnv)
      (page : Page) (d : NewsImageDiv) (rest : List NewsImageDiv),
      env.fetchPage = .ok page → page.newsimageDivs = d :: rest →
      (∀ li ∈ d.lis, liSkipped li = true) →
      main tokEnv chatEnv delayEnv env =
        ([Ev.fetch, Ev.print (pys "No items found on the page.")], Outcome.exit 0)) ∧
    (∀ (tokEnv chatEnv delayEnv : Option PyStr) (env : NetEnv) (page : Page),
      env.fetchPage = .ok page → page.newsimageDivs = [] →
      (main tokEnv chatEnv delayEnv env).2 = Outcome.exit 1) := by
  have hempty : ∀ (url : PyStr) (page : Page) (d : NewsImageDiv) (rest : List NewsImageDiv),
      page.newsimageDivs = d :: rest →
      (∀ li ∈ d.lis, liSkipped li = true) →
      extractItems url page = .ok [] := by
    intro url page d rest hdivs hskip
    have h := extractLis_mixed url d.lis (fun li hl => .inl (hskip li hl))
    have hfilter : d.lis.filter (fun li => liWellFormed li) = [] := by
      rw [List.filter_eq_nil_iff]
      intro li hl
      simp [wf_false_of_skipped li (hskip li hl)]
    simp [extractItems, hdivs, h, hfilter]
  refine ⟨?_, hempty, ?_, ?_⟩
  · intro url page hdivs
    simp [extractItems, hdivs]
  · intro tokEnv chatEnv delayEnv env page d rest hf hdivs hskip
    rw [main_eq_mainBody]
    unfold mainBody
    rw [hf]
    simp [hempty URL page d rest hdivs hskip]
  · intro tokEnv chatEnv delayEnv env page hf hdivs
    rw [main_eq_mainBody]
    unfold mainBody
    rw [hf]
    simp [extractItems, hdivs]

/-- C2 witness: the amended theorem applied to a container holding only
skipped entries, and to a container-less page. -/
theorem C2_witness :
    extractItems URL pageAllSkipped = .ok [] ∧
    main none none none (netWithPage pageAllSkipped) =
      ([Ev.fetch, Ev.print (pys "No items found on the page.")], Outcome.exit 0) ∧
    (main none none none (netWithPage pageNoContainer)).2 = Outcome.exit 1 := by
  refine ⟨?_, ?_, ?_⟩
  · exact C2_empty_extraction.2.1 URL pageAllSkipped allSkippedDiv [] rfl (by decide)
  · exact C2_empty_extraction.2.2.1 none none none (netWithPage pageAllSkipped)
      pageAllSkipped allSkippedDiv [] rfl rfl (by decide)
  · exact C2_empty_extraction.2.2.2 none none none (netWithPage pageNoContainer)
      pageNoContainer rfl rfl

/-- C3 counterexample: on the worked example entry the code produces the
image URL with a double slash after the host — the hardcoded prefix ends
in a slash and the transformed href starts with one — so the single-slash
URL claimed by the spec is not the extracted one. -/
theorem C3_cx_double_slash :
    extractItems URL pageExample =
      .ok [(pys "https://thetv.jp//i/nw/1310405/1.jpg", pys "Member A")] ∧
    pys "https://thetv.jp//i/nw/1310405/1.jpg" ≠ pys "https://thetv.jp/i/nw/1310405/1.jpg" := by
  constructor
  · rfl
  · decide

/-- C3 amended: for the entry with href /news/detail/1310405/1/ and alt
Member A, extraction produces exactly the item whose image URL is
https://thetv.jp//i/nw/1310405/1.jpg (double slash after the host) with
caption Member A. -/
theorem C3_example_item :
    extractItems URL pageExample =
      .ok [(pys "https://thetv.jp//i/nw/1310405/1.jpg", pys "Member A")] := rfl

/-- C4 counterexample: an entry with a usable href whose img element has
no alt attribute does not yield an empty caption — the subscript raises
a KeyError, which aborts the whole extraction. -/
theorem C4_cx_missing_alt_raises :
    extractEntry URL liNoAlt = .error (pys "KeyError: alt") ∧
    extractItems URL (⟨[⟨[liNoAlt]⟩]⟩ : Page) = .error (pys "KeyError: alt") := by
  constructor <;> rfl

/-- C4 amended: for an entry with a usable href, the caption equals the
img element's alt attribute when both are present, and is the empty
string when the img element is absent; when the img element is present
but its alt attribute is absent, extraction raises a KeyError instead of
producing an item. -/
theorem C4_caption_rule (url : PyStr) (li : LiTag) (anchor : ATag) (href : PyStr)
    (ha : li.a = some anchor) (hh : anchor.href = some href) (hne : href ≠ []) :
    (li.img = none → extractEntry url li = .ok (some (srcOf url href, []))) ∧
    (∀ alt, li.img = some ⟨some alt⟩ →
      extractEntry url li = .ok (some (srcOf url href, alt))) ∧
    (li.img = some ⟨none⟩ → extractEntry url li = .error (pys "KeyError: alt")) := by
  refine ⟨?_, ?_, ?_⟩
  · intro himg
    simp [extractEntry, ha, hh, hne, himg]
  · intro alt himg
    simp [extractEntry, ha, hh, hne, himg]
  · intro himg
    simp [extractEntry, ha, hh, hne, himg]

/-- C4 witness: the three caption cases at concrete entries. -/
theorem C4_witness :
    extractEntry URL (⟨some ⟨some (pys "/news/detail/1310405/9/")⟩, none⟩ : LiTag) =
      .ok (some (srcOf URL (pys "/news/detail/1310405/9/"), [])) ∧
    extractEntry URL liExample =
      .ok (some (srcOf URL (pys "/news/detail/1310405/1/"), pys "Member A")) ∧
    extractEntry URL liNoAlt = .error (pys "KeyError: alt") := by
  refine ⟨?_, ?_, ?_⟩
  · exact (C4_caption_rule URL _ _ _ rfl rfl (by decide)).1 rfl
  · exact (C4_caption_rule URL liExample ⟨some (pys "/news/detail/1310405/1/")⟩
      (pys "/news/detail/1310405/1/") rfl rfl (by decide)).2.1 (pys "Member A") rfl
  · exact (C4_caption_rule URL liNoAlt ⟨some (pys "/news/detail/1310405/2/")⟩
      (pys "/news/detail/1310405/2/") rfl rfl (by decide)).2.2 rfl

/-- C5: for a present container whose entries are each either skipped
(no anchor, or no truthy href) or well-formed (truthy href, and a
readable caption), extraction succeeds with exactly the well-formed
entries' items in document order — their count equals the number of
well-formed entries, every image URL is non-empty, and the skipped
entries are excluded without an error. -/
theorem C5_extraction_counts (url : PyStr) (page : Page) (d : NewsImageDiv)
    (rest : List NewsImageDiv)
    (hdivs : page.newsimageDivs = d :: rest)
    (h : ∀ li ∈ d.lis, liSkipped li = true ∨ liWellFormed li = true) :
    extractItems url page =
      .ok ((d.lis.filter (fun li => liWellFormed li)).map (itemOfLi url)) ∧
    ((d.lis.filter (fun li => liWellFormed li)).map (itemOfLi url)).length =
      d.lis.countP (fun li => liWellFormed li) ∧
    ∀ item ∈ (d.lis.filter (fun li => liWellFormed li)).map (itemOfLi url),
      item.1 ≠ [] := by
  refine ⟨?_, ?_, ?_⟩
  · simp [extractItems, hdivs]
    exact extractLis_mixed url d.lis h
  · rw [List.length_map]
    exact (List.countP_eq_length_filter _ _).symm
  · intro item hmem
    rw [List.mem_map] at hmem
    obtain ⟨li, _, hEq⟩ := hmem
    rw [← hEq]
    show srcOf url (liHref li) ≠ []
    rw [srcOf_eq_srcRaw]
    exact srcRaw_ne_nil _

/-- C5 witness: extraction over the mixed container keeps exactly its
two well-formed entries, in order. -/
theorem C5_witness :
    extractItems URL pageMixed =
      .ok [(pys "https://thetv.jp//i/nw/1310405/1.jpg", pys "Member A"),
           (pys "https://thetv.jp//i/nw/1310405/3.jpg", [])] ∧
    ((mixedDiv.lis.filter (fun li => liWellFormed li)).map (itemOfLi URL)).length =
      mixedDiv.lis.countP (fun li => liWellFormed li) := by
  constructor
  · exact ((C5_extraction_counts URL pageMixed mixedDiv [] rfl (by decide)).1).trans rfl
  · exact (C5_extraction_counts URL pageMixed mixedDiv [] rfl (by decide)).2.1

/-- C6: the filename returned for a downloaded image URL is the URL
path's last slash-separated segment, URL-decoded; when that segment is
empty the literal default name file is used and (lacking a recognized
extension) becomes file.jpg; a nonempty name whose lowercase form ends
in a recognized image extension is returned unchanged, and one that does
not gets .jpg appended. -/
theorem C6_filename_rule (image_url : PyStr) :
    (pyUnquote (((urlparsePath image_url).splitOn '/').getLastD []) = [] →
      deriveFilename image_url = pys "file.jpg") ∧
    (∀ seg, pyUnquote (((urlparsePath image_url).splitOn '/').getLastD []) = seg →
      seg ≠ [] → hasImageExt (seg.map Char.toLower) = true →
      deriveFilename image_url = seg) ∧
    (∀ seg, pyUnquote (((urlparsePath image_url).splitOn '/').getLastD []) = seg →
      seg ≠ [] → hasImageExt (seg.map Char.toLower) = false →
      deriveFilename image_url = seg ++ pys ".jpg") := by
  refine ⟨?_, ?_, ?_⟩
  · intro h
    simp only [deriveFilename, h]
    decide
  · intro seg hseg hne hext
    simp only [deriveFilename, hseg]
    simp [hne, hext]
  · intro seg hseg hne hext
    simp only [deriveFilename, hseg]
    simp [hne, hext]

/-- C6 witness: the filename rule at a decoded segment with a recognized
extension, one without, and an empty final segment. -/
theorem C6_witness :
    deriveFilename (pys "https://thetv.jp//i/nw/1310405/1.jpg") = pys "1.jpg" ∧
    deriveFilename (pys "https://example.com/dir/b%20c") = pys "b c.jpg" ∧
    deriveFilename (pys "https://example.com/dir/") = pys "file.jpg" := by
  refine ⟨?_, ?_, ?_⟩
  · exact ((C6_filename_rule (pys "https://thetv.jp//i/nw/1310405/1.jpg")).2.1
      (pys "1.jpg") (by decide) (by decide) (by decide))
  · exact ((C6_filename_rule (pys "https://example.com/dir/b%20c")).2.2
      (pys "b c") (by decide) (by decide) (by decide)).trans (by decide)
  · exact (C6_filename_rule (pys "https://example.com/dir/")).1 (by decide)

theorem downloadsOf_append (a b : List Ev) :
    downloadsOf (a ++ b) = downloadsOf a ++ downloadsOf b := by
  simp [downloadsOf]

theorem processItem_downloads (env : NetEnv) (token chat_id : PyVal)
    (total idx : Nat) (item : PyStr × PyStr) :
    downloadsOf (processItem env token chat_id total idx item).1 = [item.1] := by
  unfold processItem
  cases hg : download_image_bytes env item.1 with
  | error e => simp [hg, downloadsOf]
  | ok pr =>
    cases hs : send_photo_telegram env token chat_id pr.1 pr.2 item.2 with
    | error e => simp [hg, hs, downloadsOf]
    | ok ok => simp [hg, hs, downloadsOf]

theorem processItem_sent (env : NetEnv) (token chat_id : PyVal)
    (total idx : Nat) (item : PyStr × PyStr) :
    (processItem env token chat_id total idx item).2 =
      if successfulItem env token chat_id item then 1 else 0 := by
  unfold processItem successfulItem download_image_bytes send_photo_telegram
  cases hg : env.getImage item.1 with
  | error e => simp [hg]
  | ok content =>
    cases hs : env.sendPhoto token chat_id content (deriveFilename item.1) item.2 with
    | error e => simp [hg, hs]
    | ok ok => simp [hg, hs]

/-- C7: over any item list, the loop attempts a download for every item
in order — a failure on one item never stops the rest — and the sent
counter that feeds the final summary counts exactly the items whose
download and send both succeed.  In particular, on the concrete
three-item run where only the second download fails, all three items are
attempted and the printed summary is Done. Sent 2/3 images. -/
theorem C7_per_item_tolerance :
    (∀ (env : NetEnv) (token chat_id : PyVal) (total idx : Nat)
      (items : List (PyStr × PyStr)),
      downloadsOf (processFrom env token chat_id total idx items).1 =
        items.map Prod.fst ∧
      (processFrom env token chat_id total idx items).2 =
        items.countP (successfulItem env token chat_id)) ∧
    (downloadsOf (main (some (pys "token")) (some (pys "chat")) none netItemTwoFails).1 =
      [pys "https://thetv.jp//i/nw/1310405/1.jpg",
       pys "https://thetv.jp//i/nw/1310405/2.jpg",
       pys "https://thetv.jp//i/nw/1310405/3.jpg"] ∧
     Ev.print (pys "Done. Sent 2/3 images.") ∈
       (main (some (pys "token")) (some (pys "chat")) none netItemTwoFails).1 ∧
     (main (some (pys "token")) (some (pys "chat")) none netItemTwoFails).2 =
       Outcome.exit 0) := by
  constructor
  · intro env token chat_id total idx items
    induction items generalizing idx with
    | nil => simp [processFrom, downloadsOf]
    | cons item rest ih =>
      have hr := ih (idx + 1)
      constructor
      · simp [processFrom, downloadsOf_append, processItem_downloads, hr.1]
      · simp [processFrom, processItem_sent, hr.2, List.countP_cons]
        cases successfulItem env token chat_id item <;> simp [Nat.add_comm]
  · refine ⟨by decide, by decide, by decide⟩

theorem extractEntry_ok_src (url : PyStr) (li : LiTag) (item : PyStr × PyStr)
    (hex : extractEntry url li = .ok (some item)) :
    ∃ href, item.1 = srcOf url href := by
  rcases li with ⟨oa, oimg⟩
  cases oa with
  | none => simp [extractEntry] at hex
  | some anchor =>
    rcases anchor with ⟨ohref⟩
    cases ohref with
    | none => simp [extractEntry] at hex
    | some href =>
      by_cases hne : href.isEmpty
      · simp [extractEntry, hne] at hex
      · cases oimg with
        | none =>
          simp [extractEntry, hne] at hex
          exact ⟨href, by rw [← hex]⟩
        | some img =>
          rcases img with ⟨oalt⟩
          cases oalt with
          | none => simp [extractEntry, hne] at hex
          | some alt =>
            simp [extractEntry, hne] at hex
            exact ⟨href, by rw [← hex]⟩

/-- C8: any entry whose href is protocol-relative or root-relative (both
start with a slash) yields, when extracted against the hardcoded page
URL, an absolute image URL — it begins with the https scheme — whose
origin equals the page URL's origin. -/
theorem C8_relative_href_origin (li : LiTag) (anchor : ATag) (href : PyStr)
    (item : PyStr × PyStr)
    (ha : li.a = some anchor) (hh : anchor.href = some href)
    (hrel : (pys "/").isPrefixOf href = true)
    (hex : extractEntry URL li = .ok (some item)) :
    (∃ t, item.1 = pys "https://" ++ t) ∧ originOf item.1 = originOf URL := by
  obtain ⟨href2, h1⟩ := extractEntry_ok_src URL li item hex
  constructor
  · exact ⟨_, h1⟩
  · rw [h1, srcOf_eq_srcRaw, originOf_srcRaw, originOf_URL]

/-- C8 witness: the worked example's root-relative href yields an
absolute URL with the page's origin. -/
theorem C8_witness :
    (∃ t, pys "https://thetv.jp//i/nw/1310405/1.jpg" = pys "https://" ++ t) ∧
    originOf (pys "https://thetv.jp//i/nw/1310405/1.jpg") = originOf URL :=
  C8_relative_href_origin liExample ⟨some (pys "/news/detail/1310405/1/")⟩
    (pys "/news/detail/1310405/1/")
    (pys "https://thetv.jp//i/nw/1310405/1.jpg", pys "Member A")
    rfl rfl (by decide) rfl

/-- C9: every item the extractor returns has an image URL that starts
with the hardcoded https://thetv.jp/ prefix and ends with .jpg, hence is
non-empty and absolute; and for every url and href the normalization
branches leave the built src unchanged, so they are never taken. -/
theorem C9_src_invariant (url : PyStr) (li : LiTag) (item : PyStr × PyStr)
    (hex : extractEntry url li = .ok (some item)) :
    (∃ t, item.1 = pys "https://thetv.jp/" ++ t) ∧
    (∃ p, item.1 = p ++ pys ".jpg") ∧
    item.1 ≠ [] ∧
    (∀ u href, srcOf u href = srcRaw href) := by
  obtain ⟨href, h1⟩ := extractEntry_ok_src url li item hex
  refine ⟨⟨pyReplace (pyStrip href).dropLast (pys "/news/detail/") (pys "/i/nw/") ++ pys ".jpg",
      by rw [h1, srcOf_eq_srcRaw]; exact List.append_assoc _ _ _⟩,
    ⟨pys "https://thetv.jp/" ++ pyReplace (pyStrip href).dropLast (pys "/news/detail/") (pys "/i/nw/"),
      by rw [h1, srcOf_eq_srcRaw]; exact rfl⟩, ?_, fun _ _ => rfl⟩
  rw [h1, srcOf_eq_srcRaw]
  exact srcRaw_ne_nil _

/-- C9 witness: the invariant at the worked example's extracted item. -/
theorem C9_witness :
    (∃ t, pys "https://thetv.jp//i/nw/1310405/1.jpg" = pys "https://thetv.jp/" ++ t) ∧
    (∃ p, pys "https://thetv.jp//i/nw/1310405/1.jpg" = p ++ pys ".jpg") ∧
    pys "https://thetv.jp//i/nw/1310405/1.jpg" ≠ [] ∧
    (∀ u href, srcOf u href = srcRaw href) :=
  C9_src_invariant URL liExample
    (pys "https://thetv.jp//i/nw/1310405/1.jpg", pys "Member A") rfl

/-- C10: when TELEGRAM_DELAY_SECONDS is set to a string float() rejects
and the extracted item list is non-empty, the run raises an uncaught
ValueError right after the page fetch: no image is downloaded, nothing
is sent, and no fallback to the default delay happens. -/
theorem C10_bad_delay_uncaught (tokEnv chatEnv : Option PyStr) (dstr : PyStr)
    (env : NetEnv) (page : Page) (items : List (PyStr × PyStr))
    (hf : env.fetchPage = .ok page)
    (hx : extractItems URL page = .ok items)
    (hne : items ≠ [])
    (hbad : pyFloatAccepts dstr = false) :
    main tokEnv chatEnv (some dstr) env =
      ([Ev.fetch], Outcome.uncaught (pys "ValueError: could not convert string to float")) ∧
    (∀ u, Ev.download u ∉ (main tokEnv chatEnv (some dstr) env).1) ∧
    (∀ u, Ev.send u ∉ (main tokEnv chatEnv (some dstr) env).1) := by
  have hm : main tokEnv chatEnv (some dstr) env =
      ([Ev.fetch], Outcome.uncaught (pys "ValueError: could not convert string to float")) := by
    rw [main_eq_mainBody]
    unfold mainBody
    simp [hf, hx, hne, hbad, List.isEmpty_iff]
  refine ⟨hm, ?_, ?_⟩ <;> intro u <;> rw [hm] <;> simp

/-- C10 witness: the unparseable delay abc on a one-item page stops the
run with the uncaught ValueError. -/
theorem C10_witness :
    main none none (some (pys "abc")) (netWithPage pageExample) =
      ([Ev.fetch], Outcome.uncaught (pys "ValueError: could not convert string to float")) :=
  (C10_bad_delay_uncaught none none (pys "abc") (netWithPage pageExample) pageExample
    [(pys "https://thetv.jp//i/nw/1310405/1.jpg", pys "Member A")]
    rfl rfl (by decide) (by decide)).1

end SendImages
